import Mathlib

/-!
A shallow embedding of `src/picam_bench.c` (repository picam_h264): the
metrics sampler, the V4L2 capability filter and device scan, the CSI
camera-listing parser, the USB producer command builder, the ffmpeg
progress-log parser, the stats writer, the preview filter builder, and the
main session control flow.  Machine `unsigned long long` arithmetic is
modelled as natural numbers reduced modulo `2 ^ 64`; the C `double`
quotients of integer counter values are modelled in `ℚ` (the conversion to
`double` preserves sign and zero-ness, which is all the theorems use).
Theorems checking the specification's claims against these definitions
follow the definitions.
-/

namespace Picam

/-- Word size of the C `unsigned long long` arithmetic used by the sampler. -/
def W64 : ℕ := 2 ^ 64

/-- Reduce a counter value to the `unsigned long long` range. -/
def wrap64 (n : ℕ) : ℕ := n % W64

/-- C unsigned 64-bit subtraction `a - b`: wraps modulo `2 ^ 64`. -/
def sub64 (a b : ℕ) : ℕ := (wrap64 a + W64 - wrap64 b) % W64

/-- Model of C `strstr`: the suffix of `s` beginning at the first occurrence
of `pat`, or `none` when `pat` does not occur in `s`. -/
def strstrSuffix (pat : List Char) : List Char → Option (List Char)
  | [] => if pat = [] then some [] else none
  | c :: rest =>
    if pat.isPrefixOf (c :: rest) then some (c :: rest) else strstrSuffix pat rest

/-- Whether `pat` occurs somewhere in `s` (C `strstr(s, pat) != NULL`). -/
def containsSub (s pat : List Char) : Bool := (strstrSuffix pat s).isSome

/-- Model of `line_end = strchr(pn, '\n')` followed by `pn = line_end`: the
suffix of `s` starting at its first newline, or the empty suffix (the C code
uses `buf + n`, the end of the buffer) when there is none. -/
def lineEndSuffix : List Char → List Char
  | [] => []
  | c :: rest => if c = '\n' then c :: rest else lineEndSuffix rest

/-- C `isspace` on the default locale's whitespace set. -/
def isSpaceC (c : Char) : Bool :=
  c == ' ' || c == '\t' || c == '\n' || c == Char.ofNat 11 || c == Char.ofNat 12 || c == '\r'

/-- The token read by `sscanf(s, "%63s", b)`: skip leading whitespace, then
take at most 63 non-whitespace characters.  When no token is present the C
buffer `b` keeps its zeroed contents, i.e. the result is the empty string. -/
def token63 (s : List Char) : List Char :=
  (((s.dropWhile isSpaceC).takeWhile (fun c => !isSpaceC c)).take 63)

/-- The decimal digit character for `d < 10` (printf `%d` digits). -/
def digitChar (d : ℕ) : Char := Char.ofNat (48 + d)

/-- Numeric value of a decimal digit character, `none` for non-digits. -/
def charDigit? (c : Char) : Option ℕ :=
  if 48 ≤ c.toNat ∧ c.toNat ≤ 57 then some (c.toNat - 48) else none

/-- Decimal digits of `n`, least significant first. -/
def natDigitsRev (n : ℕ) : List Char :=
  if _h : n < 10 then [digitChar n]
  else digitChar (n % 10) :: natDigitsRev (n / 10)
termination_by n
decreasing_by exact Nat.div_lt_self (by omega) (by omega)

/-- printf `%d` rendering of a natural number. -/
def natToStr (n : ℕ) : List Char := (natDigitsRev n).reverse

/-- Value of a little-endian (reversed) digit string; `none` when empty or
when any character is not a digit. -/
def parseRev : List Char → Option ℕ
  | [] => none
  | [c] => charDigit? c
  | c :: rest =>
    match charDigit? c, parseRev rest with
    | some d, some v => some (d + 10 * v)
    | _, _ => none

/-- Value of a (big-endian) decimal digit string. -/
def parseNat (s : List Char) : Option ℕ := parseRev s.reverse

/-- printf `%.1f` rendering of a non-negative value given in tenths:
integer part, a dot, exactly one fractional digit. -/
def fmtTenths (k : ℕ) : List Char := natToStr (k / 10) ++ ['.', digitChar (k % 10)]

/-- Read back a `%.1f`-formatted value (in tenths) from its reversed
character list: one fractional digit, a dot, then the integer digits. -/
def parseTenthsRev : List Char → Option ℕ
  | d :: c :: r =>
    if c = '.' then
      match charDigit? d, parseRev r with
      | some dv, some iv => some (10 * iv + dv)
      | _, _ => none
    else none
  | _ => none

/-- Read back a `%.1f`-formatted value, in tenths. -/
def parseTenths (s : List Char) : Option ℕ := parseTenthsRev s.reverse

/-- Split a character buffer into lines at `'\n'`; a trailing newline yields
a final empty line, as for a C text file. -/
def splitLines : List Char → List (List Char)
  | [] => [[]]
  | c :: rest =>
    if c = '\n' then [] :: splitLines rest
    else
      match splitLines rest with
      | [] => [[c]]
      | l :: ls => (c :: l) :: ls

/-- Concatenate lines, terminating each with `'\n'` (a sequence of
`fprintf(f, "...\n")` calls). -/
def joinLines (ls : List (List Char)) : List Char :=
  ls.foldr (fun l acc => l ++ '\n' :: acc) []

/-! ### Metrics sampler (`cpu_percent_for_pids`, `rss_mb_for_pids`,
picam_bench.c lines 242-286) -/

/-- The seven counters read from the first line of `/proc/stat` by
`read_proc_stat_total` (picam_bench.c lines 159-175). -/
structure CpuTot where
  user : ℕ
  nice : ℕ
  sys : ℕ
  idle : ℕ
  iow : ℕ
  irq : ℕ
  sirq : ℕ
deriving DecidableEq

/-- The C total `t.user + t.nice + t.sys + t.idle + t.iow + t.irq + t.sirq`
in `unsigned long long` arithmetic (picam_bench.c lines 259-260). -/
def cpuTotSum (t : CpuTot) : ℕ :=
  wrap64 (t.user + t.nice + t.sys + t.idle + t.iow + t.irq + t.sirq)

/-- The mathematical (unwrapped) total of a `/proc/stat` reading, used to
state claims about the true system-wide tick delta. -/
def cpuTotInt (t : CpuTot) : ℤ :=
  (t.user : ℤ) + t.nice + t.sys + t.idle + t.iow + t.irq + t.sirq

/-- One tracked process's `(utime, stime)` reading at one read point;
`none` models `pids[i] <= 0` or a failed `read_proc_pid_stat`, both of which
leave the zero-initialised `u0/s0/u1/s1` array entries untouched
(picam_bench.c lines 245-258). -/
def procTicksAt : Option (ℕ × ℕ) → ℕ × ℕ
  | none => (0, 0)
  | some p => (wrap64 p.1, wrap64 p.2)

/-- `(u1[i]-u0[i]) + (s1[i]-s0[i])` in `unsigned long long` arithmetic for
one process, from its readings at the two read points (picam_bench.c
line 268). -/
def procDelta (r : Option (ℕ × ℕ) × Option (ℕ × ℕ)) : ℕ :=
  wrap64 (sub64 (procTicksAt r.2).1 (procTicksAt r.1).1 +
    sub64 (procTicksAt r.2).2 (procTicksAt r.1).2)

/-- The accumulated `sum` over all tracked processes (picam_bench.c
lines 265-269). -/
def ticksSum (procs : List (Option (ℕ × ℕ) × Option (ℕ × ℕ))) : ℕ :=
  wrap64 ((procs.map procDelta).sum)

/-- `cpu_percent_for_pids` (picam_bench.c lines 242-271) as a function of
the two `/proc/stat` readings and the per-process readings at the two read
points.  `tot_delta` is the C unsigned difference `tot1 - tot0`; the guard
`tot_delta <= 0` holds exactly when that unsigned difference is zero. -/
def cpu_percent_for_pids (t0 t1 : CpuTot)
    (procs : List (Option (ℕ × ℕ) × Option (ℕ × ℕ))) : ℚ :=
  let d : ℕ := sub64 (cpuTotSum t1) (cpuTotSum t0)
  if d = 0 then 0 else 100 * (ticksSum procs : ℚ) / (d : ℚ)

/-- `rss_mb_for_pids` (picam_bench.c lines 273-286) as a function of the
per-process `VmRSS` readings at report time; `none` models `pids[i] <= 0`
or a failed `read_proc_pid_stat`, which are skipped. -/
def rss_mb_for_pids (rss : List (Option ℕ)) : ℚ :=
  ((rss.map (fun r => r.getD 0)).sum : ℚ) / 1024

/-! ### V4L2 capability filter and device scan (`v4l2_supports_capture`,
`pick_usb_node`, picam_bench.c lines 300-316 and 362-382) -/

/-- `V4L2_CAP_VIDEO_CAPTURE` from `linux/videodev2.h`. -/
def V4L2_CAP_VIDEO_CAPTURE : ℕ := 0x00000001

/-- `V4L2_CAP_VIDEO_CAPTURE_MPLANE` from `linux/videodev2.h`. -/
def V4L2_CAP_VIDEO_CAPTURE_MPLANE : ℕ := 0x00001000

/-- `V4L2_CAP_DEVICE_CAPS` from `linux/videodev2.h`. -/
def V4L2_CAP_DEVICE_CAPS : ℕ := 0x80000000

/-- The capture bits tested by `v4l2_supports_capture`. -/
def captureBits : ℕ := V4L2_CAP_VIDEO_CAPTURE ||| V4L2_CAP_VIDEO_CAPTURE_MPLANE

/-- The fields of `struct v4l2_capability` used by the filter. -/
structure V4l2Cap where
  driver : List Char
  card : List Char
  capabilities : ℕ
  device_caps : ℕ
deriving DecidableEq

/-- `v4l2_supports_capture` (picam_bench.c lines 300-316) as a function of
the capability-query result: `none` models a failed `open`/`VIDIOC_QUERYCAP`
(`v4l2_querycap` returning a negative value). -/
def v4l2_supports_capture (q : Option V4l2Cap) : Bool :=
  match q with
  | none => false
  | some cap =>
    if containsSub cap.driver "bcm2835".data || containsSub cap.card "bcm2835".data ||
        containsSub cap.driver "bcm2835-codec".data ||
        containsSub cap.card "bcm2835-codec".data then false
    else if !containsSub cap.driver "uvcvideo".data then false
    else if ((cap.capabilities &&& V4L2_CAP_DEVICE_CAPS) != 0) &&
        ((cap.device_caps &&& captureBits) != 0) then true
    else if (cap.capabilities &&& captureBits) != 0 then true
    else false

/-- `pick_usb_node` (picam_bench.c lines 362-382) over the glob result,
modelled as the ascending list of `/dev/video*` paths paired with each
path's capability-query outcome: the first accepted path is selected. -/
def pick_usb_node : List (List Char × Option V4l2Cap) → Option (List Char)
  | [] => none
  | (n, q) :: rest => if v4l2_supports_capture q then some n else pick_usb_node rest

/-- The rejection conditions named by the specification for the capability
filter: failed query, internal ISP/codec (`bcm2835`) driver or card string,
a driver that is not the standard UVC driver, or no advertised single-plane
or multi-plane video-capture capability in either capability field. -/
def probe_rejected (q : Option V4l2Cap) : Bool :=
  match q with
  | none => true
  | some cap =>
    containsSub cap.driver "bcm2835".data || containsSub cap.card "bcm2835".data ||
      !containsSub cap.driver "uvcvideo".data ||
      (((cap.device_caps &&& captureBits) == 0) && ((cap.capabilities &&& captureBits) == 0))

/-! ### CSI availability parser (`detect_csi_available`, picam_bench.c
lines 844-895) -/

/-- The inner loop of `detect_csi_available` (picam_bench.c lines 878-891):
`pn = strstr(pn, "Index")`; for each hit, `strstr(pn, "usb@")` — note the C
searches from `pn` to the end of the buffer, not only the current line —
and on a miss reports a non-USB entry, else advances `pn` to
`strchr(pn, '\n')`.  The fuel argument only bounds the recursion; it is
instantiated with `buf.length + 1`, which the loop cannot exhaust since
every iteration strictly shortens the suffix. -/
def scanIndexLines : ℕ → List Char → Bool
  | 0, _ => false
  | fuel + 1, s =>
    match strstrSuffix "Index".data s with
    | none => false
    | some t =>
      if !containsSub t "usb@".data then true
      else scanIndexLines fuel (lineEndSuffix t)

/-- The parsing part of `detect_csi_available` (picam_bench.c lines 872-894)
as a function of the camera-listing helper's captured output `buf`:
no "Available cameras" declaration means not available; with no "usb@" tag
anywhere the sensor counts as present; otherwise the "Index" lines are
scanned for one not tagged `usb@`. -/
def detect_csi_available (buf : List Char) : Bool :=
  if !containsSub buf "Available cameras".data then false
  else if containsSub buf "usb@".data then scanIndexLines (buf.length + 1) buf
  else true

/-! ### USB producer command builder (`start_usb_ffmpeg`, picam_bench.c
lines 634-715) and the encode-mode resolution in `main` (lines 962-967) -/

/-- The encode modes of the `--encode` option (picam_bench.c lines 48-53). -/
inductive EncodeT
  | auto
  | software
  | hardware
deriving DecidableEq

/-- The format-support flags recorded by `v4l2_enum_formats`
(picam_bench.c lines 318-321). -/
structure FmtSupport where
  h264 : Bool
  mjpg : Bool
  yuyv : Bool
deriving DecidableEq

/-- The `input_format` choice of `start_usb_ffmpeg` (picam_bench.c
lines 637-645). -/
def usb_input_format (fs : FmtSupport) : String :=
  if fs.h264 then "h264"
  else if fs.mjpg then "mjpeg"
  else if fs.yuyv then "yuyv422"
  else "mjpeg"

/-- The argv built by `start_usb_ffmpeg` (picam_bench.c lines 652-711),
with the formatted size/framerate/bitrate strings and the device and fifo
paths as parameters; the terminating NULL is dropped. -/
def start_usb_ffmpeg_argv (fs : FmtSupport) (enc : EncodeT)
    (sz fr br dev fifo : String) : List String :=
  ["ffmpeg", "-hide_banner", "-loglevel", "error", "-f", "v4l2",
    "-input_format", usb_input_format fs, "-video_size", sz,
    "-framerate", fr, "-i", dev] ++
  (if fs.h264 then ["-c:v", "copy"]
   else if enc = EncodeT.hardware then
     ["-pix_fmt", "nv12", "-c:v", "h264_v4l2m2m",
      "-b:v", br, "-maxrate", br, "-bufsize", br]
   else
     ["-c:v", "libx264", "-preset", "ultrafast", "-tune", "zerolatency",
      "-b:v", br, "-maxrate", br, "-bufsize", br]) ++
  ["-f", "h264", fifo]

/-- The encode-mode resolution in `main` (picam_bench.c lines 962-967):
`auto` always resolves to hardware before the producer is built. -/
def resolve_encode (e : EncodeT) : EncodeT :=
  if e = EncodeT.auto then EncodeT.hardware else e

/-- The producer argv the program builds for a USB source under a requested
(user-facing) encode mode: `main` resolves the mode, then calls
`start_usb_ffmpeg`. -/
def producer_argv_for_request (fs : FmtSupport) (req : EncodeT)
    (sz fr br dev fifo : String) : List String :=
  start_usb_ffmpeg_argv fs (resolve_encode req) sz fr br dev fifo

/-! ### Progress-log parser (`ffmpeg_log_reader`, picam_bench.c
lines 464-512) -/

/-- The shared latest-value record of `overlay_state_t` (picam_bench.c
lines 456-462); the mutex is irrelevant to the per-line functional effect
modelled here. -/
structure OverlayState where
  latest_fps : ℚ
  latest_bitrate : List Char
deriving DecidableEq

/-- Model of `sscanf(s, "%lf", &f)` as used on the text after `fps=`:
skip whitespace, optional sign, integer digits, optional fraction.  On a
failed match the C leaves `f = 0`, so the model returns 0 then.  (ffmpeg's
`fps=` field is plain fixed-point decimal, so strtod's exponent and hex
forms are never exercised and are not modelled.) -/
def parseLf (s : List Char) : ℚ :=
  let s1 := s.dropWhile isSpaceC
  let sign : ℚ × List Char :=
    match s1 with
    | '-' :: r => (-1, r)
    | '+' :: r => (1, r)
    | _ => (1, s1)
  let ds := sign.2.takeWhile (fun c => (charDigit? c).isSome)
  let rest := sign.2.dropWhile (fun c => (charDigit? c).isSome)
  let frac :=
    match rest with
    | '.' :: r => r.takeWhile (fun c => (charDigit? c).isSome)
    | _ => []
  let digitsVal : List Char → ℕ := fun l => l.foldl (fun a c => 10 * a + (c.toNat - 48)) 0
  if ds = [] ∧ frac = [] then 0
  else sign.1 * ((digitsVal ds : ℚ) + (digitsVal frac : ℚ) / (10 : ℚ) ^ frac.length)

/-- The per-completed-line effect of `ffmpeg_log_reader` (picam_bench.c
lines 480-508): `strstr` the line for `"fps="` and `"bitrate="`; a found
`fps=` field overwrites `latest_fps` with the `%lf` parse of the text after
it, a found `bitrate=` field overwrites `latest_bitrate` with the `%63s`
token after it; an absent field leaves its value untouched. -/
def ffmpeg_log_reader_line (line : List Char) (st : OverlayState) : OverlayState :=
  let st1 :=
    match strstrSuffix "fps=".data line with
    | some t => { st with latest_fps := parseLf (t.drop 4) }
    | none => st
  match strstrSuffix "bitrate=".data line with
  | some t => { st1 with latest_bitrate := token63 (t.drop 8) }
  | none => st1

/-! ### Overlay coordinates and preview filter (`overlay_coords`,
`start_preview`, picam_bench.c lines 514-536 and 575-604) -/

/-- `overlay_coords` (picam_bench.c lines 514-536): the drawtext x/y
expressions for each corner name; anything unrecognised defaults to
top-left. -/
def overlay_coords (corner : List Char) : List Char × List Char :=
  if corner = "top-right".data then ("w-tw-10".data, "10".data)
  else if corner = "bottom-left".data then ("10".data, "h-th-10".data)
  else if corner = "bottom-right".data then ("w-tw-10".data, "h-th-10".data)
  else ("10".data, "10".data)

/-- `DEFAULT_CORNER` (picam_bench.c line 38). -/
def DEFAULT_CORNER : List Char := "top-left".data

/-- The drawtext filter string built by `start_preview` (picam_bench.c
lines 581-586) for a given stats path and coordinate pair. -/
def drawtext_filter (statsPath ox oy : List Char) : List Char :=
  "drawtext=fontfile=/usr/share/fonts/truetype/dejavu/DejaVuSans.ttf:textfile=".data ++
  statsPath ++ ":reload=1:x=".data ++ ox ++ ":y=".data ++ oy ++
  ":fontcolor=white:fontsize=28:box=1:boxcolor=0x000000AA:boxborderw=8:line_spacing=6".data

/-- The `-vf` filter of the consumer command for a run configured with
`cfgCorner`: `start_preview` (picam_bench.c line 579) always calls
`overlay_coords(DEFAULT_CORNER, ...)`, so the configured corner is a dead
parameter of the built command. -/
def start_preview_vf (statsPath : List Char) (cfgCorner : List Char) : List Char :=
  let _ := cfgCorner
  let p := overlay_coords DEFAULT_CORNER
  drawtext_filter statsPath p.1 p.2

/-! ### Stats writer (`stats_writer`, picam_bench.c lines 538-571) and the
label-directed parse of the written text -/

/-- The `"FPS: "` line label, including the separating space. -/
def fpsLabel : List Char := ['F', 'P', 'S', ':', ' ']

/-- The `"RES: "` line label. -/
def resLabel : List Char := ['R', 'E', 'S', ':', ' ']

/-- The `"BitRate: "` line label. -/
def brLabel : List Char := ['B', 'i', 't', 'R', 'a', 't', 'e', ':', ' ']

/-- The `"CPU: "` line label. -/
def cpuLabel : List Char := ['C', 'P', 'U', ':', ' ']

/-- The `"MEM_MB: "` line label. -/
def memMbLabel : List Char := ['M', 'E', 'M', '_', 'M', 'B', ':', ' ']

/-- The fixed `"MEM: 0.0%"` placeholder line the writer always emits
(picam_bench.c line 564). -/
def memLine : List Char := ['M', 'E', 'M', ':', ' ', '0', '.', '0', '%']

/-- `"N/A"`, written when the latest bitrate string is empty
(picam_bench.c line 554). -/
def naStr : List Char := ['N', '/', 'A']

/-- The lines written by one `stats_writer` publish cycle (picam_bench.c
lines 557-567), with the `%.1f` values given in tenths and the `%d`
resolution values as naturals. -/
def stats_writer_lines (fpsT w h : ℕ) (br : List Char) (cpuT memT : ℕ) :
    List (List Char) :=
  [fpsLabel ++ fmtTenths fpsT,
   resLabel ++ natToStr w ++ 'x' :: natToStr h,
   brLabel ++ (if br = [] then naStr else br),
   cpuLabel ++ fmtTenths cpuT ++ ['%'],
   memLine,
   memMbLabel ++ fmtTenths memT]

/-- The full text of the status file written by one publish cycle. -/
def stats_writer_content (fpsT w h : ℕ) (br : List Char) (cpuT memT : ℕ) : List Char :=
  joinLines (stats_writer_lines fpsT w h br cpuT memT)

/-- First line carrying `label`, with the label removed; `none` when no
line carries it. -/
def findLabeled (label : List Char) : List (List Char) → Option (List Char)
  | [] => none
  | l :: ls => if label.isPrefixOf l then some (l.drop label.length) else findLabeled label ls

/-- Parse a `WxH` resolution value. -/
def parseRes (s : List Char) : Option (ℕ × ℕ) :=
  let a := s.takeWhile (fun c => c != 'x')
  match s.dropWhile (fun c => c != 'x') with
  | 'x' :: t =>
    match parseNat a, parseNat t with
    | some w, some h => some (w, h)
    | _, _ => none
  | _ => none

/-- Parse a `%.1f%%` CPU value (tenths followed by a percent sign). -/
def parseCpu (s : List Char) : Option ℕ :=
  match s.reverse with
  | '%' :: r => parseTenthsRev r
  | _ => none

/-- Modelled from the spec: the repository contains no reader of the status
file (the overlay filter of the external render process consumes it), so
the spec's round-trip property is stated against this label-directed parse
of the written text: for each of the five labels `FPS:`, `RES:`, `BitRate:`,
`CPU:`, `MEM_MB:` take the first line carrying the label and read its value. -/
def parseStats (lines : List (List Char)) :
    Option (ℕ × ℕ × ℕ × List Char × ℕ × ℕ) :=
  match findLabeled fpsLabel lines, findLabeled resLabel lines,
      findLabeled brLabel lines, findLabeled cpuLabel lines,
      findLabeled memMbLabel lines with
  | some fv, some rv, some bv, some cv, some mv =>
    match parseTenths fv, parseRes rv, parseCpu cv, parseTenths mv with
    | some f, some wh, some c, some m => some (f, wh.1, wh.2, bv, c, m)
    | _, _, _, _ => none
  | _, _, _, _, _ => none

/-! ### Session control flow (`main`, picam_bench.c lines 907-1046) -/

/-- The environment outcomes that steer `main`'s session phase after
`mkdtemp` succeeds: whether `mkfifo` succeeds (`safe_mkfifo` dies on
failure, lines 123-127), whether the process spawns succeed (the spawn
helpers die on pipe/fork/exec-setup failure, lines 403-452 and 606-632),
and whether a termination signal arrives during the run. -/
structure RunEnv where
  mkfifoOk : Bool
  spawnOk : Bool
  interrupted : Bool
deriving DecidableEq

/-- The externally visible actions of `main`'s session phase. -/
inductive Act
  | mkdtempA
  | mkfifoA
  | placeholderWrite
  | startPreviewA
  | startCameraA
  | killChildren
  | waitChildrenA
  | removeTmpdirA
  | exitOk
  | dieA
deriving DecidableEq

/-- The action trace of `main` from `mkdtemp` (picam_bench.c line 983) to
process exit.  `die` (lines 83-92) prints and calls `exit(1)` without any
cleanup, so traces through it end without `removeTmpdirA`.  The signal
handler (lines 131-141) only clears the live flag and forwards `SIGTERM`
to the children; `main` then falls out of its `waitpid` calls and reaches
`ensure_dir_remove(ctx.tmpdir)` (line 1044) on the normal path, so an
interrupted run still removes the directory. -/
def main_session_trace (env : RunEnv) : List Act :=
  [Act.mkdtempA] ++
  (if env.mkfifoOk then
    [Act.mkfifoA, Act.placeholderWrite] ++
    (if env.spawnOk then
      [Act.startPreviewA, Act.startCameraA] ++
      (if env.interrupted then [Act.killChildren] else []) ++
      [Act.waitChildrenA, Act.removeTmpdirA, Act.exitOk]
    else [Act.startPreviewA, Act.dieA])
  else [Act.dieA])

/-- The placeholder status file pre-populated by `main` before the
processes start (picam_bench.c line 994). -/
def placeholder_stats : List Char :=
  "FPS: 0.0\nRES: 0x0\nBitRate: 0\nCPU: 0%\nMEM: 0%\n".data

/-- The guard under which `main` creates the progress-log reader thread and
the stats-writer thread (picam_bench.c lines 1021-1025): overlay not
disabled and the preview's captured stderr descriptor valid. -/
def spawn_stats_threads (overlayDisabled : Bool) (prevStderrFd : Int) : Bool :=
  !overlayDisabled && decide (0 ≤ prevStderrFd)

/-- The successive contents of the status file over a run: the placeholder
written by `main`, then the stats-writer thread's publish cycles when that
thread is created at all. -/
def status_file_history (overlayDisabled : Bool) (prevStderrFd : Int)
    (writerOutputs : List (List Char)) : List (List Char) :=
  [placeholder_stats] ++
    (if spawn_stats_threads overlayDisabled prevStderrFd then writerOutputs else [])

/-! ## Supporting lemmas -/

theorem charDigit?_digitChar (d : ℕ) (h : d < 10) : charDigit? (digitChar d) = some d := by
  interval_cases d <;> decide

theorem digitChar_toNat (d : ℕ) (h : d < 10) : (digitChar d).toNat = 48 + d := by
  interval_cases d <;> decide

theorem natDigitsRev_ne_nil (n : ℕ) : natDigitsRev n ≠ [] := by
  rw [natDigitsRev]
  split <;> simp

theorem mem_natDigitsRev (n : ℕ) : ∀ c ∈ natDigitsRev n, 48 ≤ c.toNat ∧ c.toNat ≤ 57 := by
  induction n using Nat.strong_induction_on with
  | _ n ih =>
    rw [natDigitsRev]
    split
    · rename_i h
      intro c hc
      simp only [List.mem_singleton] at hc
      subst hc
      rw [digitChar_toNat n h]
      omega
    · rename_i h
      intro c hc
      rcases List.mem_cons.mp hc with h1 | h2
      · subst h1
        rw [digitChar_toNat (n % 10) (Nat.mod_lt _ (by omega))]
        omega
      · exact ih (n / 10) (Nat.div_lt_self (by omega) (by omega)) c h2

theorem parseRev_natDigitsRev (n : ℕ) : parseRev (natDigitsRev n) = some n := by
  induction n using Nat.strong_induction_on with
  | _ n ih =>
    rw [natDigitsRev]
    split
    · rename_i h
      simp [parseRev, charDigit?_digitChar n h]
    · rename_i h
      obtain ⟨x, xs, hx⟩ : ∃ x xs, natDigitsRev (n / 10) = x :: xs := by
        cases hcase : natDigitsRev (n / 10) with
        | nil => exact absurd hcase (natDigitsRev_ne_nil _)
        | cons x xs => exact ⟨x, xs, rfl⟩
      have hih := ih (n / 10) (Nat.div_lt_self (by omega) (by omega))
      rw [hx] at hih
      rw [hx]
      simp [parseRev, charDigit?_digitChar (n % 10) (Nat.mod_lt _ (by omega)), hih]
      omega

theorem parseNat_natToStr (n : ℕ) : parseNat (natToStr n) = some n := by
  simp [parseNat, natToStr, List.reverse_reverse, parseRev_natDigitsRev]

theorem parseTenthsRev_fmtTenths (k : ℕ) : parseTenthsRev (fmtTenths k).reverse = some k := by
  have h1 : (fmtTenths k).reverse = digitChar (k % 10) :: '.' :: natDigitsRev (k / 10) := by
    simp [fmtTenths, natToStr, List.reverse_append]
  rw [h1]
  simp [parseTenthsRev, charDigit?_digitChar (k % 10) (Nat.mod_lt _ (by omega)),
    parseRev_natDigitsRev]
  omega

theorem parseTenths_fmtTenths (k : ℕ) : parseTenths (fmtTenths k) = some k := by
  simp [parseTenths, parseTenthsRev_fmtTenths]

theorem takeWhile_append_all {α} (p : α → Bool) (l₁ l₂ : List α)
    (h : ∀ a ∈ l₁, p a = true) : (l₁ ++ l₂).takeWhile p = l₁ ++ l₂.takeWhile p := by
  induction l₁ with
  | nil => simp
  | cons a t ihl =>
    have ha : p a = true := h a (by simp)
    simp only [List.cons_append, List.takeWhile_cons, ha, if_true]
    rw [ihl (fun x hx => h x (by simp [hx]))]

theorem dropWhile_append_all {α} (p : α → Bool) (l₁ l₂ : List α)
    (h : ∀ a ∈ l₁, p a = true) : (l₁ ++ l₂).dropWhile p = l₂.dropWhile p := by
  induction l₁ with
  | nil => simp
  | cons a t ihl =>
    have ha : p a = true := h a (by simp)
    simp only [List.cons_append, List.dropWhile_cons, ha, if_true]
    exact ihl (fun x hx => h x (by simp [hx]))

theorem isPrefixOf_append_self (l v : List Char) : l.isPrefixOf (l ++ v) = true := by
  induction l with
  | nil => simp [List.isPrefixOf]
  | cons a t ihl => simp [List.isPrefixOf, ihl]

theorem isPrefixOf_head_ne (a b : Char) (t o : List Char) (h : (a == b) = false) :
    List.isPrefixOf (a :: t) (b :: o) = false := by
  simp [List.isPrefixOf, h]

theorem drop_len_append (l v : List Char) : (l ++ v).drop l.length = v := by
  induction l with
  | nil => rfl
  | cons a t ihl => simp [ihl]

theorem findLabeled_cons_of_ne (lab l : List Char) (ls : List (List Char))
    (h : lab.isPrefixOf l = false) : findLabeled lab (l :: ls) = findLabeled lab ls := by
  simp [findLabeled, h]

theorem findLabeled_cons_of_prefix (lab v : List Char) (ls : List (List Char)) :
    findLabeled lab ((lab ++ v) :: ls) = some v := by
  simp [findLabeled, isPrefixOf_append_self, drop_len_append]

theorem splitLines_append_line (l rest : List Char) (h : '\n' ∉ l) :
    splitLines (l ++ '\n' :: rest) = l :: splitLines rest := by
  induction l with
  | nil => simp [splitLines]
  | cons c t ihl =>
    have hc : ¬c = '\n' := by
      intro he
      exact h (by simp [he])
    have ht : '\n' ∉ t := fun hm => h (by simp [hm])
    simp [splitLines, hc, ihl ht]

theorem splitLines_joinLines (ls : List (List Char)) (h : ∀ l ∈ ls, '\n' ∉ l) :
    splitLines (joinLines ls) = ls ++ [[]] := by
  induction ls with
  | nil => simp [joinLines, splitLines]
  | cons l t ihl =>
    have h1 : '\n' ∉ l := h l (by simp)
    have h2 : ∀ x ∈ t, '\n' ∉ x := fun x hx => h x (by simp [hx])
    show splitLines (l ++ '\n' :: joinLines t) = (l :: t) ++ [[]]
    rw [splitLines_append_line l _ h1, ihl h2]
    rfl

theorem nl_not_mem_natToStr (n : ℕ) : '\n' ∉ natToStr n := by
  intro hm
  rw [natToStr, List.mem_reverse] at hm
  exact absurd (mem_natDigitsRev n _ hm) (by decide)

theorem nl_not_mem_fmtTenths (k : ℕ) : '\n' ∉ fmtTenths k := by
  intro hm
  rw [fmtTenths] at hm
  rcases List.mem_append.mp hm with h1 | h2
  · exact nl_not_mem_natToStr _ h1
  · simp only [List.mem_cons] at h2
    rcases h2 with h2 | h2 | h2
    · exact absurd h2 (by decide)
    · have h4 : (digitChar (k % 10)).toNat = 48 + k % 10 :=
        digitChar_toNat _ (Nat.mod_lt _ (by omega))
      rw [← h2] at h4
      have h5 : ('\n').toNat = 10 := by decide
      omega
    · exact absurd h2 (List.not_mem_nil _)

theorem natToStr_ne_x (w : ℕ) : ∀ c ∈ natToStr w, (c != 'x') = true := by
  intro c hc
  rw [natToStr, List.mem_reverse] at hc
  have h2 := mem_natDigitsRev w c hc
  have h3 : c ≠ 'x' := by
    intro he
    rw [he] at h2
    revert h2
    decide
  simpa using h3

theorem parseRes_fmt (w h : ℕ) : parseRes (natToStr w ++ 'x' :: natToStr h) = some (w, h) := by
  have ht : (natToStr w ++ 'x' :: natToStr h).takeWhile (fun c => c != 'x') = natToStr w := by
    rw [takeWhile_append_all _ _ _ (natToStr_ne_x w)]
    simp
  have hd : (natToStr w ++ 'x' :: natToStr h).dropWhile (fun c => c != 'x') =
      'x' :: natToStr h := by
    rw [dropWhile_append_all _ _ _ (natToStr_ne_x w)]
    simp
  simp [parseRes, ht, hd, parseNat_natToStr]

theorem parseCpu_fmt (c : ℕ) : parseCpu (fmtTenths c ++ ['%']) = some c := by
  have h1 : (fmtTenths c ++ ['%']).reverse = '%' :: (fmtTenths c).reverse := by
    simp
  rw [parseCpu, h1]
  simp [parseTenthsRev_fmtTenths]

theorem takeWhile_label (bare v : List Char) (h : ∀ a ∈ bare, (a != ' ') = true) :
    ((bare ++ ' ' :: v).takeWhile (fun c => c != ' ')) = bare := by
  rw [takeWhile_append_all _ _ _ h]
  simp

/-! ## Claim theorems -/

/-- C1: the claim states that a system-wide total tick delta `≤ 0` yields a
CPU percentage of exactly 0.  The code's guard `tot_delta <= 0` compares the
C unsigned difference, which for a negative true delta wraps to a huge
positive value, so the guard does not fire: with total ticks 1 at the start
and 0 at the end (true delta `-1 ≤ 0`) and one process gaining one tick,
`cpu_percent_for_pids` returns `100 / (2^64 - 1) ≠ 0` instead of the 0 the
claim requires. -/
theorem c1_cpu_delta_guard_wrap_bug :
    cpuTotInt ⟨0, 0, 0, 0, 0, 0, 0⟩ - cpuTotInt ⟨1, 0, 0, 0, 0, 0, 0⟩ ≤ 0 ∧
    cpu_percent_for_pids ⟨1, 0, 0, 0, 0, 0, 0⟩ ⟨0, 0, 0, 0, 0, 0, 0⟩
      [(some (0, 0), some (1, 0))] = 100 / ((2 : ℚ) ^ 64 - 1) ∧
    100 / ((2 : ℚ) ^ 64 - 1) ≠ 0 := by
  refine ⟨by decide, ?_, by norm_num⟩
  have hd : sub64 (cpuTotSum ⟨0, 0, 0, 0, 0, 0, 0⟩) (cpuTotSum ⟨1, 0, 0, 0, 0, 0, 0⟩) =
      2 ^ 64 - 1 := by decide
  have hts : ticksSum [(some (0, 0), some (1, 0))] = 1 := by decide
  simp only [cpu_percent_for_pids]
  rw [hd, hts]
  norm_num

/-- C2: the claim states that any listing declaring available cameras with
at least one non-USB-tagged entry yields `true` regardless of entry order.
The code's inner check `strstr(pn, "usb@")` searches from the current
`Index` entry to the end of the buffer rather than to the end of the line,
so a non-USB entry listed before a USB-tagged entry is misclassified: the
first output below (non-USB entry first) yields `false` although the claim
requires `true`, while the same two entries in the other order yield
`true`, and an all-USB listing correctly yields `false`. -/
theorem c2_csi_detect_order_bug :
    detect_csi_available
      "Available cameras\nIndex 0 : imx219 [1280x720]\nIndex 1 : usb@1.2 uvc cam\n".data
      = false ∧
    detect_csi_available
      "Available cameras\nIndex 0 : usb@1.2 uvc cam\nIndex 1 : imx219 [1280x720]\n".data
      = true ∧
    detect_csi_available
      "Available cameras\nIndex 0 : usb@1.2 uvc cam\n".data = false := by
  refine ⟨by decide, by decide, by decide⟩

/-- C3 counterexample: the claim states that when native compressed capture
is absent and the requested encode mode is not `hardware` (so also for
`auto`), the software encoder is used.  For a device supporting only MJPEG
and requested mode `auto`, the program resolves `auto` to hardware and
builds the `h264_v4l2m2m` command with no `libx264`/`ultrafast` arguments. -/
theorem c3_auto_mode_counterexample :
    producer_argv_for_request ⟨false, true, false⟩ EncodeT.auto
      "1280x720" "30" "4000000" "/dev/video0" "/tmp/picamc/video.h264" =
      ["ffmpeg", "-hide_banner", "-loglevel", "error", "-f", "v4l2",
       "-input_format", "mjpeg", "-video_size", "1280x720", "-framerate", "30",
       "-i", "/dev/video0", "-pix_fmt", "nv12", "-c:v", "h264_v4l2m2m",
       "-b:v", "4000000", "-maxrate", "4000000", "-bufsize", "4000000",
       "-f", "h264", "/tmp/picamc/video.h264"] ∧
    "libx264" ∉ producer_argv_for_request ⟨false, true, false⟩ EncodeT.auto
      "1280x720" "30" "4000000" "/dev/video0" "/tmp/picamc/video.h264" ∧
    "ultrafast" ∉ producer_argv_for_request ⟨false, true, false⟩ EncodeT.auto
      "1280x720" "30" "4000000" "/dev/video0" "/tmp/picamc/video.h264" := by
  refine ⟨rfl, by decide, by decide⟩

/-- C3 (amended): for every USB source and requested encode mode, native
compressed capture yields the stream-copy passthrough command with no
software or hardware encoder, regardless of the requested mode; without
native compressed capture, the hardware-assisted encoder (`h264_v4l2m2m`)
is used for requested modes `hardware` and `auto` (the program resolves
`auto` to hardware), and the software encoder `libx264` with the
`ultrafast` preset and `zerolatency` tune for requested mode `software`;
both encode paths set `-b:v`, `-maxrate` and `-bufsize` to the configured
target bitrate. -/
theorem c3_usb_encoder_selection (fs : FmtSupport) (req : EncodeT)
    (sz fr br dev fifo : String) :
    (fs.h264 = true →
      producer_argv_for_request fs req sz fr br dev fifo =
        ["ffmpeg", "-hide_banner", "-loglevel", "error", "-f", "v4l2",
         "-input_format", "h264", "-video_size", sz, "-framerate", fr,
         "-i", dev, "-c:v", "copy", "-f", "h264", fifo]) ∧
    (fs.h264 = false → (req = EncodeT.hardware ∨ req = EncodeT.auto) →
      producer_argv_for_request fs req sz fr br dev fifo =
        ["ffmpeg", "-hide_banner", "-loglevel", "error", "-f", "v4l2",
         "-input_format", usb_input_format fs, "-video_size", sz, "-framerate", fr,
         "-i", dev, "-pix_fmt", "nv12", "-c:v", "h264_v4l2m2m",
         "-b:v", br, "-maxrate", br, "-bufsize", br, "-f", "h264", fifo]) ∧
    (fs.h264 = false → req = EncodeT.software →
      producer_argv_for_request fs req sz fr br dev fifo =
        ["ffmpeg", "-hide_banner", "-loglevel", "error", "-f", "v4l2",
         "-input_format", usb_input_format fs, "-video_size", sz, "-framerate", fr,
         "-i", dev, "-c:v", "libx264", "-preset", "ultrafast", "-tune", "zerolatency",
         "-b:v", br, "-maxrate", br, "-bufsize", br, "-f", "h264", fifo]) := by
  refine ⟨?_, ?_, ?_⟩
  · intro h
    simp [producer_argv_for_request, start_usb_ffmpeg_argv, usb_input_format, h]
  · intro h hreq
    rcases hreq with rfl | rfl <;>
      simp [producer_argv_for_request, resolve_encode, start_usb_ffmpeg_argv, h]
  · intro h hreq
    subst hreq
    simp [producer_argv_for_request, resolve_encode, start_usb_ffmpeg_argv, h]

/-- C3 witness: the three branches of `c3_usb_encoder_selection` at
concrete inputs. -/
theorem c3_usb_encoder_selection_witness :
    producer_argv_for_request ⟨true, false, false⟩ EncodeT.auto "SZ" "FR" "BR" "DEV" "FIFO" =
      ["ffmpeg", "-hide_banner", "-loglevel", "error", "-f", "v4l2",
       "-input_format", "h264", "-video_size", "SZ", "-framerate", "FR",
       "-i", "DEV", "-c:v", "copy", "-f", "h264", "FIFO"] ∧
    producer_argv_for_request ⟨false, true, false⟩ EncodeT.auto "SZ" "FR" "BR" "DEV" "FIFO" =
      ["ffmpeg", "-hide_banner", "-loglevel", "error", "-f", "v4l2",
       "-input_format", "mjpeg", "-video_size", "SZ", "-framerate", "FR",
       "-i", "DEV", "-pix_fmt", "nv12", "-c:v", "h264_v4l2m2m",
       "-b:v", "BR", "-maxrate", "BR", "-bufsize", "BR", "-f", "h264", "FIFO"] ∧
    producer_argv_for_request ⟨false, false, true⟩ EncodeT.software "SZ" "FR" "BR" "DEV" "FIFO" =
      ["ffmpeg", "-hide_banner", "-loglevel", "error", "-f", "v4l2",
       "-input_format", "yuyv422", "-video_size", "SZ", "-framerate", "FR",
       "-i", "DEV", "-c:v", "libx264", "-preset", "ultrafast", "-tune", "zerolatency",
       "-b:v", "BR", "-maxrate", "BR", "-bufsize", "BR", "-f", "h264", "FIFO"] := by
  refine ⟨?_, ?_, ?_⟩
  · exact (c3_usb_encoder_selection ⟨true, false, false⟩ EncodeT.auto
      "SZ" "FR" "BR" "DEV" "FIFO").1 rfl
  · exact ((c3_usb_encoder_selection ⟨false, true, false⟩ EncodeT.auto
      "SZ" "FR" "BR" "DEV" "FIFO").2.1 rfl (Or.inr rfl)).trans (by decide)
  · exact ((c3_usb_encoder_selection ⟨false, false, true⟩ EncodeT.software
      "SZ" "FR" "BR" "DEV" "FIFO").2.2 rfl rfl).trans (by decide)

/-- C4 counterexample: the claim states that a process unreadable at any of
the read points contributes exactly zero for that cycle.  A process that is
readable at the first read point (5 user ticks) and unreadable at the
second leaves its zero-initialised end reading, so its C unsigned delta is
`2^64 - 5`, not zero: the cycle's result differs from the result with only
the surviving process, which alone would give 20. -/
theorem c4_partial_unreadable_counterexample :
    cpu_percent_for_pids ⟨0, 0, 0, 0, 0, 0, 0⟩ ⟨10, 0, 0, 0, 0, 0, 0⟩
      [(some (5, 0), none), (some (0, 0), some (2, 0))] ≠
      cpu_percent_for_pids ⟨0, 0, 0, 0, 0, 0, 0⟩ ⟨10, 0, 0, 0, 0, 0, 0⟩
        [(some (0, 0), some (2, 0))] ∧
    cpu_percent_for_pids ⟨0, 0, 0, 0, 0, 0, 0⟩ ⟨10, 0, 0, 0, 0, 0, 0⟩
      [(some (0, 0), some (2, 0))] = 20 := by
  have hd : sub64 (cpuTotSum ⟨10, 0, 0, 0, 0, 0, 0⟩) (cpuTotSum ⟨0, 0, 0, 0, 0, 0, 0⟩) = 10 := by
    decide
  have h1 : ticksSum [(some (5, 0), none), (some (0, 0), some (2, 0))] = 2 ^ 64 - 3 := by
    decide
  have h2 : ticksSum [(some (0, 0), some (2, 0))] = 2 := by decide
  constructor
  · simp only [cpu_percent_for_pids]
    rw [hd, h1, h2]
    norm_num
  · simp only [cpu_percent_for_pids]
    rw [hd, h2]
    norm_num

/-- C4 (amended): a tracked process identity that is unreadable at both
read points of a sampling cycle contributes exactly zero to the aggregate
CPU percentage, an identity unreadable at memory-report time contributes
exactly zero to the resident-memory sum, the other processes' contributions
are unaffected, and both computations are total (the cycle never aborts).
(A process readable at the first read point but unreadable at the second
instead contributes the wrapped unsigned difference, per the
counterexample.) -/
theorem c4_absent_process_zero_contribution (t0 t1 : CpuTot)
    (rest : List (Option (ℕ × ℕ) × Option (ℕ × ℕ))) (mrest : List (Option ℕ)) :
    cpu_percent_for_pids t0 t1 ((none, none) :: rest) = cpu_percent_for_pids t0 t1 rest ∧
    rss_mb_for_pids (none :: mrest) = rss_mb_for_pids mrest := by
  constructor
  · have h : ticksSum ((none, none) :: rest) = ticksSum rest := by
      simp [ticksSum, procDelta, procTicksAt, sub64, wrap64]
    simp [cpu_percent_for_pids, h]
  · simp [rss_mb_for_pids]

/-- C5: a completed progress line containing a `bitrate=` field but no
`fps=` field updates the shared latest bitrate to the token following
`bitrate=` and leaves the shared latest frame rate at its previous value;
a line containing neither field leaves the shared record unchanged. -/
theorem c5_sticky_parse (line : List Char) (st : OverlayState)
    (hf : strstrSuffix "fps=".data line = none) :
    (∀ t, strstrSuffix "bitrate=".data line = some t →
      ffmpeg_log_reader_line line st =
        { latest_fps := st.latest_fps, latest_bitrate := token63 (t.drop 8) }) ∧
    (strstrSuffix "bitrate=".data line = none → ffmpeg_log_reader_line line st = st) := by
  constructor
  · intro t ht
    simp [ffmpeg_log_reader_line, hf, ht]
  · intro hb
    simp [ffmpeg_log_reader_line, hf, hb]

/-- C5 witness: `c5_sticky_parse` at a concrete bitrate-only progress line
and at a concrete line with neither field. -/
theorem c5_sticky_parse_witness :
    ffmpeg_log_reader_line
      "frame=  111 q=-1.0 size=     256kB time=00:00:03.70 bitrate= 566.9kbits/s speed=1.01x".data
      ⟨30, "500kbits/s".data⟩ =
      { latest_fps := 30, latest_bitrate := "566.9kbits/s".data } ∧
    ffmpeg_log_reader_line "Press ctrl-c to stop capturing".data ⟨30, "500kbits/s".data⟩ =
      ⟨30, "500kbits/s".data⟩ := by
  constructor
  · exact ((c5_sticky_parse _ _ (by decide)).1
      "bitrate= 566.9kbits/s speed=1.01x".data (by decide)).trans (by decide)
  · exact (c5_sticky_parse _ _ (by decide)).2 (by decide)

/-- C6 counterexample: the written file does not consist of exactly the
five claimed labeled lines: every publish cycle also writes the fixed
placeholder line `MEM: 0.0%`, whose label `MEM:` is none of `FPS:`, `RES:`,
`BitRate:`, `CPU:`, `MEM_MB:`. -/
theorem c6_mem_line_counterexample :
    memLine ∈ stats_writer_lines 0 1280 720 ['0'] 0 0 ∧
    memLine.takeWhile (fun c => c != ' ') = ['M', 'E', 'M', ':'] ∧
    (['M', 'E', 'M', ':'] : List Char) ∉
      [['F', 'P', 'S', ':'], ['R', 'E', 'S', ':'],
       ['B', 'i', 't', 'R', 'a', 't', 'e', ':'], ['C', 'P', 'U', ':'],
       ['M', 'E', 'M', '_', 'M', 'B', ':']] := by
  refine ⟨by simp [stats_writer_lines], by decide, by decide⟩

/-- C6 (amended): writing the status file from a set of values (the `%.1f`
values given in tenths, the bitrate a nonempty string without newlines) and
parsing the written text by the five fixed labels recovers exactly the same
labeled values, and the written file consists of exactly those five labeled
lines plus the fixed placeholder line `MEM: 0.0%`. -/
theorem c6_stats_roundtrip (fpsT w h : ℕ) (br : List Char) (cpuT memT : ℕ)
    (hbr : br ≠ []) (hnl : '\n' ∉ br) :
    parseStats (splitLines (stats_writer_content fpsT w h br cpuT memT)) =
      some (fpsT, w, h, br, cpuT, memT) ∧
    (stats_writer_lines fpsT w h br cpuT memT).map
        (fun l => l.takeWhile (fun c => c != ' ')) =
      [['F', 'P', 'S', ':'], ['R', 'E', 'S', ':'],
       ['B', 'i', 't', 'R', 'a', 't', 'e', ':'], ['C', 'P', 'U', ':'],
       ['M', 'E', 'M', ':'], ['M', 'E', 'M', '_', 'M', 'B', ':']] := by
  have hnlAll : ∀ l ∈ stats_writer_lines fpsT w h br cpuT memT, '\n' ∉ l := by
    intro l hl
    simp only [stats_writer_lines, List.mem_cons] at hl
    rcases hl with rfl | rfl | rfl | rfl | rfl | rfl | hl
    · intro hm
      rcases List.mem_append.mp hm with hm | hm
      · revert hm
        decide
      · exact nl_not_mem_fmtTenths _ hm
    · intro hm
      rcases List.mem_append.mp hm with hm | hm
      · rcases List.mem_append.mp hm with hm | hm
        · revert hm
          decide
        · exact nl_not_mem_natToStr _ hm
      · rcases List.mem_cons.mp hm with hm | hm
        · exact absurd hm (by decide)
        · exact nl_not_mem_natToStr _ hm
    · intro hm
      rcases List.mem_append.mp hm with hm | hm
      · revert hm
        decide
      · rw [if_neg hbr] at hm
        exact hnl hm
    · intro hm
      rcases List.mem_append.mp hm with hm | hm
      · rcases List.mem_append.mp hm with hm | hm
        · revert hm
          decide
        · exact nl_not_mem_fmtTenths _ hm
      · revert hm
        decide
    · decide
    · intro hm
      rcases List.mem_append.mp hm with hm | hm
      · revert hm
        decide
      · exact nl_not_mem_fmtTenths _ hm
    · exact absurd hl (List.not_mem_nil _)
  have e0 : splitLines (stats_writer_content fpsT w h br cpuT memT) =
      stats_writer_lines fpsT w h br cpuT memT ++ [[]] :=
    splitLines_joinLines _ hnlAll
  constructor
  · rw [e0]
    simp only [stats_writer_lines, if_neg hbr, List.cons_append, List.nil_append]
    simp [parseStats, findLabeled, fpsLabel, resLabel, brLabel, cpuLabel, memMbLabel,
      memLine, List.isPrefixOf, parseTenths_fmtTenths, parseRes_fmt, parseCpu_fmt]
  · simp only [stats_writer_lines, List.map_cons, List.map_nil, List.cons.injEq, and_true]
    refine ⟨?_, ?_, ?_, ?_, ?_, ?_⟩
    · exact takeWhile_label ['F', 'P', 'S', ':'] (fmtTenths fpsT) (by decide)
    · exact takeWhile_label ['R', 'E', 'S', ':'] (natToStr w ++ 'x' :: natToStr h) (by decide)
    · exact takeWhile_label ['B', 'i', 't', 'R', 'a', 't', 'e', ':']
        (if br = [] then naStr else br) (by decide)
    · exact takeWhile_label ['C', 'P', 'U', ':'] (fmtTenths cpuT ++ ['%']) (by decide)
    · decide
    · exact takeWhile_label ['M', 'E', 'M', '_', 'M', 'B', ':'] (fmtTenths memT) (by decide)

/-- C6 witness: `c6_stats_roundtrip` at a concrete set of values. -/
theorem c6_stats_roundtrip_witness :
    parseStats (splitLines (stats_writer_content 123 1280 720 "930.2kbits/s".data 427 189)) =
      some (123, 1280, 720, "930.2kbits/s".data, 427, 189) ∧
    (stats_writer_lines 123 1280 720 "930.2kbits/s".data 427 189).map
        (fun l => l.takeWhile (fun c => c != ' ')) =
      [['F', 'P', 'S', ':'], ['R', 'E', 'S', ':'],
       ['B', 'i', 't', 'R', 'a', 't', 'e', ':'], ['C', 'P', 'U', ':'],
       ['M', 'E', 'M', ':'], ['M', 'E', 'M', '_', 'M', 'B', ':']] :=
  c6_stats_roundtrip 123 1280 720 "930.2kbits/s".data 427 189 (by decide) (by decide)

/-- C7: the claim states the consumer command's overlay filter uses the
configured corner's coordinate expressions.  `overlay_coords` does map
`bottom-right` to the text-size/frame-size based expressions, but
`start_preview` always calls it with `DEFAULT_CORNER`, so the filter built
for a run configured with `bottom-right` is identical to the `top-left` one:
it contains the fixed origin offsets `x=10:y=10` and does not contain the
expression `w-tw-10` the claim requires. -/
theorem c7_overlay_corner_ignored_bug :
    overlay_coords "bottom-right".data = ("w-tw-10".data, "h-th-10".data) ∧
    start_preview_vf "/tmp/picamc/stats.txt".data "bottom-right".data =
      start_preview_vf "/tmp/picamc/stats.txt".data "top-left".data ∧
    containsSub (start_preview_vf "/tmp/picamc/stats.txt".data "bottom-right".data)
      ":x=10:y=10:".data = true ∧
    containsSub (start_preview_vf "/tmp/picamc/stats.txt".data "bottom-right".data)
      "w-tw-10".data = false := by
  refine ⟨by decide, rfl, by decide, by decide⟩

/-- C8 counterexample: the claim covers setup failures occurring after the
ephemeral directory is created; a run whose named-pipe creation fails exits
through `die` without the directory ever being removed. -/
theorem c8_mkfifo_failure_counterexample :
    Act.removeTmpdirA ∉ main_session_trace ⟨false, true, false⟩ ∧
    Act.dieA ∈ main_session_trace ⟨false, true, false⟩ ∧
    Act.mkdtempA ∈ main_session_trace ⟨false, true, false⟩ := by
  refine ⟨by decide, by decide, by decide⟩

/-- C8 (amended): on every run whose session setup succeeds (named pipe
created, both processes spawned), the ephemeral directory is removed
immediately before process exit, both on normal child exit and on
signal-interrupted shutdown; a fatal setup failure after directory creation
(for example named-pipe creation failure) instead exits through `die`
without removing the directory, per the counterexample. -/
theorem c8_cleanup_on_completed_runs (env : RunEnv)
    (h1 : env.mkfifoOk = true) (h2 : env.spawnOk = true) :
    ∃ pre, main_session_trace env = pre ++ [Act.removeTmpdirA, Act.exitOk] := by
  obtain ⟨mk, sp, intr⟩ := env
  simp only at h1 h2
  subst h1
  subst h2
  cases intr
  · exact ⟨[Act.mkdtempA, Act.mkfifoA, Act.placeholderWrite, Act.startPreviewA,
      Act.startCameraA, Act.waitChildrenA], by decide⟩
  · exact ⟨[Act.mkdtempA, Act.mkfifoA, Act.placeholderWrite, Act.startPreviewA,
      Act.startCameraA, Act.killChildren, Act.waitChildrenA], by decide⟩

/-- C8 witness: `c8_cleanup_on_completed_runs` for an interrupted run with
successful setup. -/
theorem c8_cleanup_on_completed_runs_witness :
    ∃ pre, main_session_trace ⟨true, true, true⟩ = pre ++ [Act.removeTmpdirA, Act.exitOk] :=
  c8_cleanup_on_completed_runs ⟨true, true, true⟩ rfl rfl

theorem probe_rejected_supports (q : Option V4l2Cap) (hq : probe_rejected q = true) :
    v4l2_supports_capture q = false := by
  cases q with
  | none => rfl
  | some cap =>
    simp only [probe_rejected, Bool.or_eq_true] at hq
    simp only [v4l2_supports_capture]
    rcases hq with ((h | h) | h) | h
    · simp [h]
    · simp [h]
    · split
      · rfl
      · simp [h]
    · rw [Bool.and_eq_true] at h
      obtain ⟨hd, hc⟩ := h
      simp only [beq_iff_eq] at hd hc
      split
      · rfl
      · split
        · rfl
        · simp [hd, hc]

theorem pick_usb_node_rejected (p : List Char) :
    ∀ devs : List (List Char × Option V4l2Cap),
      (∀ q', (p, q') ∈ devs → probe_rejected q' = true) →
      pick_usb_node devs ≠ some p := by
  intro devs
  induction devs with
  | nil =>
    intro _ hc
    simp [pick_usb_node] at hc
  | cons d rest ih =>
    intro hall hc
    obtain ⟨n, q'⟩ := d
    by_cases hs : v4l2_supports_capture q' = true
    · simp only [pick_usb_node, if_pos hs] at hc
      have hn : n = p := Option.some.inj hc
      have hrej : probe_rejected q' = true := by
        refine hall q' ?_
        rw [← hn]
        exact List.mem_cons_self _ _
      have hfalse := probe_rejected_supports q' hrej
      rw [hfalse] at hs
      exact absurd hs (by simp)
    · simp only [pick_usb_node, if_neg hs] at hc
      exact ih (fun q'' hm => hall q'' (List.mem_cons_of_mem _ hm)) hc

/-- C9: every device whose capability query fails, or whose driver or card
string matches the internal `bcm2835` ISP/codec patterns, or whose driver
is not the standard UVC driver, or which advertises neither single-plane
nor multi-plane video-capture capability, is rejected by
`v4l2_supports_capture`; and the automatic device scan never selects a path
all of whose query outcomes satisfy those rejection conditions. -/
theorem c9_rejected_never_selected (q : Option V4l2Cap)
    (devs : List (List Char × Option V4l2Cap)) (p : List Char)
    (hq : probe_rejected q = true)
    (hall : ∀ q', (p, q') ∈ devs → probe_rejected q' = true) :
    v4l2_supports_capture q = false ∧ pick_usb_node devs ≠ some p :=
  ⟨probe_rejected_supports q hq, pick_usb_node_rejected p devs hall⟩

/-- C9 witness: `c9_rejected_never_selected` at a concrete internal ISP
node offered as the only scan candidate. -/
theorem c9_rejected_never_selected_witness :
    v4l2_supports_capture
      (some ⟨"bcm2835-isp".data, "bcm2835 isp".data, 0x85200001, 0x04200001⟩) = false ∧
    pick_usb_node
      [("/dev/video13".data,
        some ⟨"bcm2835-isp".data, "bcm2835 isp".data, 0x85200001, 0x04200001⟩)] ≠
      some "/dev/video13".data :=
  c9_rejected_never_selected _ _ _ (by decide)
    (by
      intro q' hm
      simp only [List.mem_singleton, Prod.mk.injEq] at hm
      rw [hm.2]
      decide)

/-- C10: for a run started with the overlay disabled, the guard under which
`main` creates the progress-log reader thread and the stats-writer thread
is false for every stderr descriptor, so the status file's content over the
whole run is exactly the pre-populated placeholder, whose lines are the
five zeroed `FPS/RES/BitRate/CPU/MEM` lines and which carries no `MEM_MB`
line. -/
theorem c10_no_overlay_placeholder (fd : Int) (outs : List (List Char)) :
    spawn_stats_threads true fd = false ∧
    status_file_history true fd outs = [placeholder_stats] ∧
    splitLines placeholder_stats =
      ["FPS: 0.0".data, "RES: 0x0".data, "BitRate: 0".data, "CPU: 0%".data,
       "MEM: 0%".data, []] ∧
    ∀ l ∈ splitLines placeholder_stats, memMbLabel.isPrefixOf l = false := by
  refine ⟨rfl, ?_, by decide, by decide⟩
  simp [status_file_history, spawn_stats_threads]

end Picam
